import Mathlib

/-!
The `/danmaku` slash command of `server/command_hooks.go`.

A shallow embedding of the command hooks of the plugin and the properties of
its command-to-broadcast protocol.

Modelling conventions.

* A Go `string` is a list of Unicode code points (`GoString := List Char`),
  i.e. the text is well-formed UTF-8, which is what the host delivers (the
  command line reaches the plugin JSON-decoded).  Library functions that work
  rune by rune (`strings.Fields`, `unicode.IsSpace`) are embedded on that view.
* A Go `[]byte` that holds file contents is a list of naturals, each read
  modulo `256`.
* Calls that leave the plugin (the host API, the file system, the HTTP
  client) are answered by an explicit environment `Env`, and every function
  that performs such calls returns the list of calls it made, in order.
* A run-time panic is an explicit outcome.
-/

namespace Danmaku

/-- A Go string, seen as its sequence of code points. -/
abbrev GoString := List Char

/-! ## Library functions used by the hooks -/

/-- Go `unicode.IsSpace`: in Latin-1 the characters `\t \n \v \f \r`, space,
U+0085 and U+00A0; above Latin-1 the code points of the `White_Space` table. -/
def IsSpace (r : Char) : Bool :=
  if r.toNat ≤ 0xFF then
    r.toNat == 0x09 || r.toNat == 0x0A || r.toNat == 0x0B || r.toNat == 0x0C ||
    r.toNat == 0x0D || r.toNat == 0x20 || r.toNat == 0x85 || r.toNat == 0xA0
  else
    r.toNat == 0x1680 || (0x2000 ≤ r.toNat && r.toNat ≤ 0x200A) ||
    r.toNat == 0x2028 || r.toNat == 0x2029 || r.toNat == 0x202F ||
    r.toNat == 0x205F || r.toNat == 0x3000

/-- The scanning loop of Go `strings.FieldsFunc`.  The second argument is the
loop variable `start`: `none` when no field is open (`start < 0`), `some w`
when a field is open and `w` is the text from `start` up to the current
position.  A span is emitted when a separator closes an open field, and once
more at the end of the input if a field is still open. -/
def FieldsFunc.loop (f : Char → Bool) : GoString → Option GoString → List GoString
  | [], none => []
  | [], some w => [w]
  | r :: rest, none =>
      if f r then FieldsFunc.loop f rest none else FieldsFunc.loop f rest (some [r])
  | r :: rest, some w =>
      if f r then w :: FieldsFunc.loop f rest none
      else FieldsFunc.loop f rest (some (w ++ [r]))

/-- Go `strings.FieldsFunc`. -/
def FieldsFunc (s : GoString) (f : Char → Bool) : List GoString :=
  FieldsFunc.loop f s none

/-- Go `strings.Fields`: the input split around each run of white space as
defined by `unicode.IsSpace` (the ASCII fast path of the library computes the
same spans, its table `asciiSpace` being `IsSpace` on ASCII). -/
def Fields (s : GoString) : List GoString :=
  FieldsFunc s IsSpace

/-- Go `strings.Join`. -/
def Join (elems : List GoString) (sep : GoString) : GoString :=
  match elems with
  | [] => []
  | [e] => e
  | e :: rest => e ++ (rest.map (fun s => sep ++ s)).flatten

/-- Go `strings.TrimPrefix`: `s` without the leading `prefix`, or `s` itself
when it does not start with it. -/
def TrimPrefix (s pre : GoString) : GoString :=
  if pre.isPrefixOf s then s.drop pre.length else s

/-- The slice expression `fields[1:]`, used under the guard `len(fields) > 1`. -/
def sliceFrom1 (fields : List GoString) : List GoString :=
  fields.drop 1

/-! ## Content extraction (`executeCommandDanmaku`, first part) -/

/-- The first part of `executeCommandDanmaku`: the value of its variable
`remainingArgs` once the `if` has run, i.e. the zero value `""` unless there
is more than one field. -/
def remainingArgs (command : GoString) : GoString :=
  let fields := Fields command
  if fields.length > 1 then Join (sliceFrom1 fields) " ".toList else []

/-! ## Data exchanged with the host and with the broadcast endpoint -/

/-- The fields of `model.CommandArgs` that the hooks read. -/
structure CommandArgs where
  UserId : GoString
  ChannelId : GoString
  Command : GoString
  deriving DecidableEq

/-- The fields of `model.Post` that the hooks set; all other fields keep their
zero value. -/
structure Post where
  ChannelId : GoString := []
  Message : GoString := []
  deriving DecidableEq

/-- The fields of `model.CommandResponse` that the hooks set; all other fields
keep their zero value. -/
structure CommandResponse where
  ResponseType : GoString := []
  Text : GoString := []
  deriving DecidableEq

/-- The fields of `model.Command` that `registerCommands` sets. -/
structure Command where
  Trigger : GoString := []
  AutoComplete : Bool := false
  AutoCompleteHint : GoString := []
  AutoCompleteDesc : GoString := []
  AutocompleteIconData : GoString := []
  deriving DecidableEq

/-- The struct `BroadcastRequest`. -/
structure BroadcastRequest where
  RoomID : GoString
  CourseName : GoString
  PageNumber : GoString
  Content : GoString
  Type_ : GoString
  AvatarURL : GoString
  deriving DecidableEq

/-- A JSON object all of whose members are strings: the member names with
their values, in the order in which they are written. -/
abbrev JsonObject := List (GoString × GoString)

/-- Go `json.Marshal` on a `BroadcastRequest`, given by the object it writes:
one member per struct field, named by the field's `json` tag, in declaration
order.  A struct of strings is always encodable, so the error is absent. -/
def Marshal (r : BroadcastRequest) : Except GoString JsonObject :=
  .ok [("room_id".toList, r.RoomID), ("course_name".toList, r.CourseName),
       ("page_number".toList, r.PageNumber), ("content".toList, r.Content),
       ("type".toList, r.Type_), ("avatar_url".toList, r.AvatarURL)]

/-- What the hooks look at in an `http.Response`: the status code and the text
that `io.ReadAll(resp.Body)` delivers. -/
structure HttpResponse where
  StatusCode : Nat
  Body : GoString
  deriving DecidableEq

/-- A step recorded in the trace of a hook: a call that leaves the plugin, or
the entry into `sendBroadcast` with its `text` argument. -/
inductive Call where
  | sendBroadcast (text : GoString)
  | httpDo (method url contentType : GoString) (body : JsonObject)
  | sendEphemeralPost (userId : GoString) (post : Post)
  | getBundlePath
  | readFile (path : List GoString)
  | logError (msg err : GoString)
  | registerCommand (cmd : Command)
  deriving DecidableEq

/-- The answers of everything outside the plugin.
* `DanmakuUrl`: the setting read through `p.getConfiguration()`;
* `NewRequest url`: the error of `http.NewRequest("POST", url, _)`, if any;
* `Do url body`: the result of `client.Do(req)`, an error covering every
  transport failure, the 10 second timeout included;
* `SendEphemeralPost`, `GetBundlePath`, `RegisterCommand`: the host API;
* `ReadFile`: `os.ReadFile` of the path that `filepath.Join` builds from the
  given elements. -/
structure Env where
  DanmakuUrl : GoString
  NewRequest : GoString → Option GoString
  Do : GoString → JsonObject → Except GoString HttpResponse
  SendEphemeralPost : GoString → Post → Option Post
  GetBundlePath : Except GoString GoString
  ReadFile : List GoString → Except GoString (List Nat)
  RegisterCommand : Command → Option GoString

/-! ## `fmt.Sprintf` without operands -/

/-- The flag characters skipped after a `%`. -/
def isFlag (c : Char) : Bool :=
  c == '#' || c == '0' || c == '+' || c == '-' || c == ' '

/-- Go `fmt.tooLarge`. -/
def tooLarge (x : Nat) : Bool := x > 1000000

/-- The loop of Go `fmt.parsenum` on the text `s[start:end]`: the number read,
whether a digit was read, and the text left.  On overflow the position jumps
to `end`, so nothing is left. -/
def parsenum.loop : GoString → Nat → Bool → Nat × Bool × GoString
  | [], num, isnum => (num, isnum, [])
  | c :: cs, num, isnum =>
    if '0'.toNat ≤ c.toNat ∧ c.toNat ≤ '9'.toNat then
      if tooLarge num then (0, false, [])
      else parsenum.loop cs (num * 10 + (c.toNat - '0'.toNat)) true
    else (num, isnum, c :: cs)

/-- Go `fmt.parsenum`. -/
def parsenum (s : GoString) : Nat × Bool × GoString :=
  parsenum.loop s 0 false

/-- Go `fmt.parseArgNumber` on a text that starts with `[`: the index, the
number of characters to skip, and whether the index is well formed. -/
def parseArgNumber (format : GoString) : Int × Nat × Bool :=
  if format.length < 3 then (0, 1, false)
  else
    let inner := (format.drop 1).takeWhile (fun c => c != ']')
    if inner.length + 1 < format.length then
      -- the closing bracket is at position `inner.length + 1`
      match parsenum inner with
      | (width, ok, rest) =>
        if !ok || !rest.isEmpty then (0, inner.length + 2, false)
        else ((width : Int) - 1, inner.length + 2, true)
    else (0, 1, false)

/-- Go `(*pp).argNumber` when there are no operands (`numArgs = 0`): the text
left, `found`, and the new value of `goodArgNum`.  No index is in range, so
an explicit index always clears `goodArgNum`. -/
def argNumber (format : GoString) (goodArgNum : Bool) : GoString × Bool × Bool :=
  match format with
  | '[' :: _ =>
    match parseArgNumber format with
    | (_, wid, ok) => (format.drop wid, ok, false)
  | _ => (format, false, goodArgNum)

/-- The width part of a verb: the text written, the text left, `afterIndex`,
`goodArgNum`. -/
def verbWidth (format : GoString) (afterIndex goodArgNum : Bool) :
    GoString × GoString × Bool × Bool :=
  match format with
  | '*' :: rest => ("%!(BADWIDTH)".toList, rest, false, goodArgNum)
  | _ =>
    match parsenum format with
    | (_, widPresent, rest) =>
      ([], rest, afterIndex, if afterIndex && widPresent then false else goodArgNum)

/-- The precision part of a verb: the text written, the text left,
`afterIndex`, `goodArgNum`. -/
def verbPrec (format : GoString) (afterIndex goodArgNum : Bool) :
    GoString × GoString × Bool × Bool :=
  match format with
  | '.' :: rest =>
    match argNumber rest (if afterIndex then false else goodArgNum) with
    | (rest, afterIndex, goodArgNum) =>
      match rest with
      | '*' :: rest => ("%!(BADPREC)".toList, rest, false, goodArgNum)
      | _ =>
        match parsenum rest with
        | (_, _, rest) => ([], rest, afterIndex, goodArgNum)
  | _ => ([], format, afterIndex, goodArgNum)

/-- One verb of Go `(*pp).doPrintf` with no operands, started right after the
`%`: the text written and the text left. -/
def doVerb (format : GoString) : GoString × GoString :=
  match argNumber (format.dropWhile isFlag) true with
  | (format, afterIndex, goodArgNum) =>
    match verbWidth format afterIndex goodArgNum with
    | (out1, format, afterIndex, goodArgNum) =>
      match verbPrec format afterIndex goodArgNum with
      | (out2, format, afterIndex, goodArgNum) =>
        match (if afterIndex then (format, afterIndex, goodArgNum)
               else argNumber format goodArgNum) with
        | (format, _, goodArgNum) =>
          match format with
          | [] => (out1 ++ out2 ++ "%!(NOVERB)".toList, [])
          | verb :: rest =>
            if verb == '%' then (out1 ++ out2 ++ ['%'], rest)
            else if !goodArgNum then
              (out1 ++ out2 ++ "%!".toList ++ [verb] ++ "(BADINDEX)".toList, rest)
            else
              (out1 ++ out2 ++ "%!".toList ++ [verb] ++ "(MISSING)".toList, rest)

/-- The format loop of Go `(*pp).doPrintf` with no operands: copy the text up
to the next `%`, then process one verb.  Every round consumes the `%`, so
`len(format) + 1` rounds are enough. -/
def doPrintf.loop : Nat → GoString → GoString
  | 0, _ => []
  | fuel + 1, format =>
    match format.dropWhile (fun c => c != '%') with
    | [] => format
    | _ :: afterPercent =>
      match doVerb afterPercent with
      | (out, rest) =>
        format.takeWhile (fun c => c != '%') ++ out ++ doPrintf.loop fuel rest

/-- Go `fmt.Sprintf(format)` called with a format and no operands. -/
def Sprintf (format : GoString) : GoString :=
  doPrintf.loop (format.length + 1) format

/-! ## Standard base64 -/

/-- The alphabet of `base64.StdEncoding`. -/
def encodeStd : GoString :=
  "ABCDEFGHIJKLMNOPQRSTUVWXYZabcdefghijklmnopqrstuvwxyz0123456789+/".toList

/-- The table lookup `enc.encode[i]`. -/
def encodeAt (i : Nat) : Char := encodeStd.getD i 'A'

/-- Go `(*Encoding).Encode` of `base64.StdEncoding` (padding character `=`):
three bytes at a time give four characters; a rest of one or two bytes gives
two or three characters and padding. -/
def Encode : List Nat → GoString
  | b0 :: b1 :: b2 :: rest =>
    let val := (b0 % 256) <<< 16 ||| (b1 % 256) <<< 8 ||| (b2 % 256)
    encodeAt (val >>> 18 &&& 0x3F) :: encodeAt (val >>> 12 &&& 0x3F) ::
      encodeAt (val >>> 6 &&& 0x3F) :: encodeAt (val &&& 0x3F) :: Encode rest
  | [b0, b1] =>
    let val := (b0 % 256) <<< 16 ||| (b1 % 256) <<< 8
    [encodeAt (val >>> 18 &&& 0x3F), encodeAt (val >>> 12 &&& 0x3F),
     encodeAt (val >>> 6 &&& 0x3F), '=']
  | [b0] =>
    let val := (b0 % 256) <<< 16
    [encodeAt (val >>> 18 &&& 0x3F), encodeAt (val >>> 12 &&& 0x3F), '=', '=']
  | [] => []

/-- Go `base64.StdEncoding.EncodeToString`. -/
def EncodeToString (src : List Nat) : GoString := Encode src

/-! ## The hooks of `command_hooks.go` -/

/-- The constant `commandTriggerDanmaku`. -/
def commandTriggerDanmaku : GoString := "danmaku".toList

/-- The constant `model.CommandResponseTypeEphemeral`. -/
def CommandResponseTypeEphemeral : GoString := "ephemeral".toList

/-- The notice posted when there is nothing to send. -/
def emptyContentNotice : GoString := "发送内容不能为空".toList

/-- The message posted after the broadcast was attempted. -/
def successMessage : GoString := "弹幕发送成功🎉".toList

/-- The method `getAutocompleteIconData`: the calls made and the string
returned.  The final `fmt.Sprintf` has the constant format
`data:image/svg+xml;base64,%s` and a string operand, so it puts the operand
after the constant text. -/
def getAutocompleteIconData (env : Env) (icon_name : GoString) : List Call × GoString :=
  match env.GetBundlePath with
  | .error err =>
    ([.getBundlePath, .logError "Couldn't get bundle path".toList err], [])
  | .ok bundlePath =>
    match env.ReadFile [bundlePath, "assets".toList, icon_name] with
    | .error err =>
      ([.getBundlePath, .readFile [bundlePath, "assets".toList, icon_name],
        .logError "Failed to open icon".toList err], [])
    | .ok icon =>
      ([.getBundlePath, .readFile [bundlePath, "assets".toList, icon_name]],
       "data:image/svg+xml;base64,".toList ++ EncodeToString icon)

/-- The command that `registerCommands` builds, given the icon data. -/
def danmakuCommand (iconData : GoString) : Command :=
  { Trigger := commandTriggerDanmaku
    AutoComplete := true
    AutoCompleteHint := []
    AutoCompleteDesc := "向所有人发送弹幕".toList
    AutocompleteIconData := iconData }

/-- The method `registerCommands`: the calls made and the error returned
(`none` for `nil`).  `errors.Wrapf` puts its message and `": "` in front of
the message of the cause. -/
def registerCommands (env : Env) : List Call × Option GoString :=
  match getAutocompleteIconData env "danmaku.svg".toList with
  | (calls, iconData) =>
    match env.RegisterCommand (danmakuCommand iconData) with
    | some err =>
      (calls ++ [.registerCommand (danmakuCommand iconData)],
       some ("failed to register ".toList ++ commandTriggerDanmaku ++
             " command".toList ++ ": ".toList ++ err))
    | none => (calls ++ [.registerCommand (danmakuCommand iconData)], none)

/-- The request body that `sendBroadcast` builds for a text. -/
def requestBody (text : GoString) : BroadcastRequest :=
  { RoomID := []
    CourseName := []
    PageNumber := "-1".toList
    Content := text
    Type_ := "command".toList
    AvatarURL := "https://vip.123pan.cn/1841937928/11391818".toList }

/-- The result of `sendBroadcast`: the trace, the map returned (`none`
for `nil`) and the error returned (`none` for `nil`). -/
structure BroadcastResult where
  calls : List Call
  result : Option (List (GoString × GoString))
  err : Option GoString
  deriving DecidableEq

/-- The function `sendBroadcast`.  Each `fmt.Errorf` has a constant format
that ends in `%v` or `%s` and one operand, so its message is the constant text
followed by the operand (for `%v` on an error, its message). -/
def sendBroadcast (env : Env) (text : GoString) : BroadcastResult :=
  match Marshal (requestBody text) with
  | .error err => ⟨[.sendBroadcast text], none, some ("编码请求体失败: ".toList ++ err)⟩
  | .ok jsonData =>
    match env.NewRequest env.DanmakuUrl with
    | some err => ⟨[.sendBroadcast text], none, some ("创建请求失败: ".toList ++ err)⟩
    | none =>
      match env.Do env.DanmakuUrl jsonData with
      | .error err =>
        ⟨[.sendBroadcast text,
          .httpDo "POST".toList env.DanmakuUrl "application/json".toList jsonData],
         none, some ("请求失败: ".toList ++ err)⟩
      | .ok resp =>
        if resp.StatusCode != 200 then
          ⟨[.sendBroadcast text,
            .httpDo "POST".toList env.DanmakuUrl "application/json".toList jsonData],
           none, some ("广播失败: ".toList ++ resp.Body)⟩
        else
          ⟨[.sendBroadcast text,
            .httpDo "POST".toList env.DanmakuUrl "application/json".toList jsonData],
           some [("response_type".toList, "ephemeral".toList),
                 ("text".toList, "发送成功".toList)], none⟩

/-- The middle part of `executeCommandDanmaku`: the value of its variable
`post`, with the trace up to there.  The notice is prepared when the content is
empty; otherwise `sendBroadcast` is called as a statement, which drops its two
results, and the success message is prepared. -/
def danmakuPost (env : Env) (args : CommandArgs) : List Call × Post :=
  if remainingArgs args.Command = [] then
    ([], { ChannelId := args.ChannelId, Message := emptyContentNotice })
  else
    ((sendBroadcast env (remainingArgs args.Command)).calls,
     { ChannelId := args.ChannelId, Message := successMessage })

/-- The method `executeCommandDanmaku`: the trace and the response returned.
The value of `SendEphemeralPost` is assigned to `_`, and the response is
`&model.CommandResponse{}`. -/
def executeCommandDanmaku (env : Env) (args : CommandArgs) : List Call × CommandResponse :=
  match danmakuPost env args with
  | (calls, post) =>
    match env.SendEphemeralPost args.UserId post with
    | _ => (calls ++ [.sendEphemeralPost args.UserId post], {})

/-- How a call of a hook ends. -/
inductive Outcome (α : Type) where
  | panicked (msg : GoString)
  | returned (calls : List Call) (value : α)
  deriving DecidableEq

/-- The method `ExecuteCommand`: a panic when `strings.Fields(args.Command)`
has no element `0`, otherwise the calls made and the pair returned
(`none` for a `nil` pointer). -/
def ExecuteCommand (env : Env) (args : CommandArgs) :
    Outcome (Option CommandResponse × Option GoString) :=
  match Fields args.Command with
  | [] => .panicked "runtime error: index out of range [0] with length 0".toList
  | field0 :: _ =>
    if TrimPrefix field0 "/".toList = commandTriggerDanmaku then
      match executeCommandDanmaku env args with
      | (calls, resp) => .returned calls (some resp, none)
    else
      .returned []
        (some { ResponseType := CommandResponseTypeEphemeral
                Text := Sprintf ("Unknown command: ".toList ++ args.Command) },
         none)

/-- An environment for the examples: the endpoint answers with the given
status and body, the host accepts everything, the icon file holds `<svg/>`. -/
def sampleEnv (status : Nat) (body : GoString) : Env :=
  { DanmakuUrl := "http://localhost:8000/broadcast".toList
    NewRequest := fun _ => none
    Do := fun _ _ => .ok ⟨status, body⟩
    SendEphemeralPost := fun _ post => some post
    GetBundlePath := .ok "/plugins/danmaku".toList
    ReadFile := fun _ => .ok [60, 115, 118, 103, 47, 62]
    RegisterCommand := fun _ => none }

/-- An environment for the examples in which the endpoint cannot be reached:
`client.Do` fails with the given error. -/
def unreachableEnv (err : GoString) : Env :=
  { sampleEnv 0 [] with Do := fun _ _ => .error err }

/-- An environment for the examples in which the configured URL is rejected
by `http.NewRequest`. -/
def badUrlEnv (err : GoString) : Env :=
  { sampleEnv 0 [] with DanmakuUrl := "::".toList, NewRequest := fun _ => some err }

/-! ## Reference definitions, written from the wording of the contract -/

/-- The white-space-separated fields of a text, as the contract words them:
cut the text at every white-space character and keep the pieces that are not
empty. -/
def specFields (s : GoString) : List GoString :=
  (s.splitOnP IsSpace).filter (fun w => !w.isEmpty)

/-- The fields rejoined with exactly one space between neighbours. -/
def specJoin (fields : List GoString) : GoString :=
  [' '].intercalate fields

/-- A word: a non-empty text without separator characters. -/
def IsWord (f : Char → Bool) (w : GoString) : Prop :=
  w ≠ [] ∧ ∀ c ∈ w, f c = false

/-- Two neighbours are not both white space. -/
def NotBothSpace (a b : Char) : Prop := ¬ (IsSpace a = true ∧ IsSpace b = true)

/-- A text has no two adjacent white-space characters. -/
def NoDoubleSpace (s : GoString) : Prop :=
  ∀ l a b r, s = l ++ a :: b :: r → ¬ (IsSpace a = true ∧ IsSpace b = true)

/-- The JSON object that the contract prescribes for a content: six members,
of which only `content` varies. -/
def specBody (content : GoString) : JsonObject :=
  [("room_id".toList, "".toList), ("course_name".toList, "".toList),
   ("page_number".toList, "-1".toList), ("content".toList, content),
   ("type".toList, "command".toList),
   ("avatar_url".toList, "https://vip.123pan.cn/1841937928/11391818".toList)]

/-- The trace entries that are calls of `RegisterCommand`. -/
def Call.isRegisterCommand : Call → Bool
  | .registerCommand _ => true
  | _ => false

/-- The trace entries that are calls of `SendEphemeralPost`. -/
def Call.isEphemeralPost : Call → Bool
  | .sendEphemeralPost _ _ => true
  | _ => false

/-- The eight bits of a byte, most significant first, as `0` or `1`. -/
def byteBits (b : Nat) : List Nat :=
  [b % 256 / 128 % 2, b % 256 / 64 % 2, b % 256 / 32 % 2, b % 256 / 16 % 2,
   b % 256 / 8 % 2, b % 256 / 4 % 2, b % 256 / 2 % 2, b % 256 % 2]

/-- The number written by a list of bits, most significant first. -/
def bitsValue (bits : List Nat) : Nat :=
  bits.foldl (fun n b => 2 * n + b) 0

/-- A bit stream cut into groups of six bits, the last group filled up with
zero bits; each group is given by its value. -/
def sextets : List Nat → List Nat
  | b0 :: b1 :: b2 :: b3 :: b4 :: b5 :: rest =>
    bitsValue [b0, b1, b2, b3, b4, b5] :: sextets rest
  | [] => []
  | b0 :: rest => [bitsValue ((b0 :: rest) ++ List.replicate (5 - rest.length) 0)]

/-- Base 64 as RFC 4648 words it: the bytes form a bit stream, read six bits at
a time (zero bits fill the last group), each group selects a character of the
alphabet, and `=` characters bring the length to a multiple of four. -/
def stdBase64 (src : List Nat) : GoString :=
  let chars := (sextets (src.flatMap byteBits)).map encodeAt
  chars ++ List.replicate ((4 - chars.length % 4) % 4) '='

/-! ## Fields -/

theorem loop_eq_splitOnP_go (f : Char → Bool) (s acc : GoString) :
    (List.splitOnP.go f s acc).filter (fun w => !w.isEmpty) =
      FieldsFunc.loop f s (if acc = [] then none else some acc.reverse) := by
  induction s generalizing acc with
  | nil =>
    by_cases h : acc = []
    · simp [List.splitOnP.go, FieldsFunc.loop, h]
    · simp [List.splitOnP.go, FieldsFunc.loop, h]
  | cons a t ih =>
    by_cases hf : f a = true
    · have h0 := ih []
      simp only [if_true] at h0
      by_cases h : acc = []
      · simp [List.splitOnP.go, FieldsFunc.loop, h, hf, h0]
      · simp [List.splitOnP.go, FieldsFunc.loop, h, hf, h0]
    · have h1 := ih (a :: acc)
      simp only [List.cons_ne_nil, if_false, List.reverse_cons] at h1
      by_cases h : acc = []
      · subst h
        simpa [List.splitOnP.go, FieldsFunc.loop, hf] using h1
      · simpa [List.splitOnP.go, FieldsFunc.loop, h, hf] using h1

theorem Fields_eq_specFields (s : GoString) : Fields s = specFields s := by
  have h := loop_eq_splitOnP_go IsSpace s []
  simp only [if_true] at h
  simp [Fields, FieldsFunc, specFields, List.splitOnP, h]

theorem loop_words (f : Char → Bool) (s : GoString) (o : Option GoString)
    (ho : ∀ w, o = some w → IsWord f w) :
    ∀ x ∈ FieldsFunc.loop f s o, IsWord f x := by
  induction s generalizing o with
  | nil =>
    cases o with
    | none => simp [FieldsFunc.loop]
    | some w => simpa [FieldsFunc.loop] using ho w rfl
  | cons a t ih =>
    cases o with
    | none =>
      by_cases hf : f a = true
      · simpa [FieldsFunc.loop, hf] using ih none (by simp)
      · have hw : IsWord f [a] := ⟨by simp, by simpa using hf⟩
        simpa [FieldsFunc.loop, hf] using ih (some [a]) (by simpa using hw)
    | some w =>
      have hw := ho w rfl
      by_cases hf : f a = true
      · intro x hx
        simp only [FieldsFunc.loop, hf, if_true, List.mem_cons] at hx
        rcases hx with rfl | hx
        · exact hw
        · exact ih none (by simp) x hx
      · have hw2 : IsWord f (w ++ [a]) := by
          refine ⟨by simp, ?_⟩
          intro c hc
          rcases List.mem_append.1 hc with h | h
          · exact hw.2 c h
          · simp at h; subst h; simpa using hf
        simpa [FieldsFunc.loop, hf] using ih (some (w ++ [a])) (by simpa using hw2)

theorem Fields_words (s : GoString) : ∀ x ∈ Fields s, IsWord IsSpace x :=
  loop_words IsSpace s none (by simp)

theorem loop_append_open (f : Char → Bool) (u s w : GoString) (hu : ∀ c ∈ u, f c = false) :
    FieldsFunc.loop f (u ++ s) (some w) = FieldsFunc.loop f s (some (w ++ u)) := by
  induction u generalizing w with
  | nil => simp
  | cons a t ih =>
    have ha : f a = false := hu a (by simp)
    have := ih (w ++ [a]) (fun c hc => hu c (by simp [hc]))
    simpa [FieldsFunc.loop, ha] using this

theorem loop_append_word (f : Char → Bool) (u s : GoString) (hu : IsWord f u) :
    FieldsFunc.loop f (u ++ s) none = FieldsFunc.loop f s (some u) := by
  obtain ⟨hne, hall⟩ := hu
  cases u with
  | nil => exact absurd rfl hne
  | cons a t =>
    have ha : f a = false := hall a (by simp)
    have := loop_append_open f t s [a] (fun c hc => hall c (by simp [hc]))
    simpa [FieldsFunc.loop, ha] using this

theorem loop_joined (f : Char → Bool) (sep : Char) (hsep : f sep = true) (ws : List GoString)
    (hws : ∀ x ∈ ws, IsWord f x) (w : GoString) :
    FieldsFunc.loop f ((ws.map (fun s => sep :: s)).flatten) (some w) = w :: ws := by
  induction ws generalizing w with
  | nil => simp [FieldsFunc.loop]
  | cons v vs ih =>
    have hv := hws v (by simp)
    have := ih (fun x hx => hws x (by simp [hx])) v
    simp [FieldsFunc.loop, hsep, loop_append_word f v _ hv, this]

theorem Join_cons (w : GoString) (ws : List GoString) (sep : GoString) :
    Join (w :: ws) sep = w ++ (ws.map (fun s => sep ++ s)).flatten := by
  cases ws with
  | nil => simp [Join]
  | cons v vs => rfl

theorem Fields_Join (w : GoString) (ws : List GoString) (hw : IsWord IsSpace w)
    (hws : ∀ x ∈ ws, IsWord IsSpace x) :
    Fields (Join (w :: ws) " ".toList) = w :: ws := by
  rw [Join_cons, Fields, FieldsFunc, loop_append_word _ _ _ hw]
  exact loop_joined IsSpace ' ' (by decide) ws hws w

theorem specJoin_cons (w : GoString) (ws : List GoString) :
    specJoin (w :: ws) = w ++ (ws.map (fun s => [' '] ++ s)).flatten := by
  induction ws generalizing w with
  | nil => simp [specJoin, List.intercalate]
  | cons v vs ih =>
    have h := ih v
    simp only [specJoin, List.intercalate] at h ⊢
    simp [List.intersperse, h]

theorem Join_eq_specJoin (ws : List GoString) : Join ws " ".toList = specJoin ws := by
  cases ws with
  | nil => rfl
  | cons w ws => rw [Join_cons, specJoin_cons]; rfl

theorem chain_of_word (w : GoString) (hw : ∀ c ∈ w, IsSpace c = false) :
    List.Chain' NotBothSpace w := by
  apply List.Pairwise.chain'
  apply List.pairwise_of_forall_mem_list
  intro a ha b _ h
  simp [hw a ha] at h

theorem joined_shape (w : GoString) (ws : List GoString) (hw : IsWord IsSpace w)
    (hws : ∀ x ∈ ws, IsWord IsSpace x) :
    (∃ c rest, w ++ (ws.map (fun s => ' ' :: s)).flatten = c :: rest ∧ IsSpace c = false) ∧
    (∃ c, (w ++ (ws.map (fun s => ' ' :: s)).flatten).getLast? = some c ∧ IsSpace c = false) ∧
    List.Chain' NotBothSpace (w ++ (ws.map (fun s => ' ' :: s)).flatten) := by
  induction ws generalizing w with
  | nil =>
    obtain ⟨hne, hall⟩ := hw
    refine ⟨?_, ?_, by simpa using chain_of_word w hall⟩
    · cases w with
      | nil => exact absurd rfl hne
      | cons a t => exact ⟨a, t, by simp, hall a (by simp)⟩
    · refine ⟨w.getLast hne, by simp [List.getLast?_eq_getLast _ hne], hall _ (List.getLast_mem hne)⟩
  | cons v vs ih =>
    obtain ⟨⟨c, rest, hc, hcs⟩, ⟨d, hd, hds⟩, hch⟩ :=
      ih v (hws v (by simp)) (fun x hx => hws x (by simp [hx]))
    obtain ⟨hne, hall⟩ := hw
    have hflat : w ++ ((v :: vs).map (fun s => ' ' :: s)).flatten =
        w ++ ' ' :: (v ++ (vs.map (fun s => ' ' :: s)).flatten) := by simp
    rw [hflat]
    refine ⟨?_, ?_, ?_⟩
    · cases w with
      | nil => exact absurd rfl hne
      | cons a t => exact ⟨a, _, rfl, hall a (by simp)⟩
    · refine ⟨d, ?_, hds⟩
      rw [List.getLast?_append_of_ne_nil _ (by simp)]
      rw [hc] at hd ⊢
      rw [List.getLast?_cons_cons]
      exact hd
    · rw [List.chain'_append]
      refine ⟨chain_of_word w hall, ?_, ?_⟩
      · rw [hc] at hch ⊢
        rw [List.chain'_cons]
        exact ⟨by simp [NotBothSpace, hcs], hch⟩
      · intro x hx y hy
        simp at hy
        subst hy
        have : x ∈ w := List.mem_of_mem_getLast? hx
        simp [NotBothSpace, hall x this]

theorem remainingArgs_eq_Join (s : GoString) :
    remainingArgs s = Join (Fields s).tail " ".toList := by
  unfold remainingArgs sliceFrom1
  cases h : Fields s with
  | nil => simp [Join]
  | cons a t =>
    cases t with
    | nil => simp [Join]
    | cons b r => simp

theorem remainingArgs_shape (s : GoString) :
    remainingArgs s = [] ∨
    ∃ w ws, (Fields s).tail = w :: ws ∧ IsWord IsSpace w ∧ (∀ x ∈ ws, IsWord IsSpace x) ∧
      remainingArgs s = w ++ (ws.map (fun s => ' ' :: s)).flatten := by
  rw [remainingArgs_eq_Join]
  cases h : (Fields s).tail with
  | nil => left; rfl
  | cons w ws =>
    right
    have hmem : ∀ x ∈ w :: ws, IsWord IsSpace x := fun x hx =>
      Fields_words s x (List.mem_of_mem_tail (h ▸ hx))
    exact ⟨w, ws, rfl, hmem w (by simp), fun x hx => hmem x (by simp [hx]), by
      rw [Join_cons]; simp⟩

/-- C1: the content extracted by `executeCommandDanmaku` is the list of
white-space-separated fields of the command line after the first one, joined
with exactly one space each; it is empty when there is at most one field; it
neither starts nor ends with white space and has no two adjacent white-space
characters; and `/danmaku   a   b` yields `a b`. -/
theorem remainingArgs_contract (s : GoString) :
    remainingArgs s = specJoin (specFields s).tail ∧
    ((specFields s).length ≤ 1 → remainingArgs s = []) ∧
    (∀ c rest, remainingArgs s = c :: rest → IsSpace c = false) ∧
    (∀ c, (remainingArgs s).getLast? = some c → IsSpace c = false) ∧
    NoDoubleSpace (remainingArgs s) ∧
    remainingArgs "/danmaku   a   b".toList = "a b".toList := by
  refine ⟨?_, ?_, ?_, ?_, ?_, by decide⟩
  · rw [remainingArgs_eq_Join, Join_eq_specJoin, Fields_eq_specFields]
  · intro h
    rw [remainingArgs_eq_Join, Fields_eq_specFields]
    cases hf : specFields s with
    | nil => rfl
    | cons a t =>
      cases t with
      | nil => rfl
      | cons b r => simp [hf] at h
  · intro c rest hc
    rcases remainingArgs_shape s with h | ⟨w, ws, _, hw, hws, h⟩
    · rw [h] at hc; cases hc
    · obtain ⟨⟨c', rest', hc', hs⟩, _, _⟩ := joined_shape w ws hw hws
      rw [h, hc'] at hc
      cases hc
      exact hs
  · intro c hc
    rcases remainingArgs_shape s with h | ⟨w, ws, _, hw, hws, h⟩
    · rw [h] at hc; cases hc
    · obtain ⟨_, ⟨d, hd, hs⟩, _⟩ := joined_shape w ws hw hws
      rw [h, hd] at hc
      cases hc
      exact hs
  · intro l a b r hs
    rcases remainingArgs_shape s with h | ⟨w, ws, _, hw, hws, h⟩
    · rw [h] at hs
      cases l <;> cases hs
    · obtain ⟨_, _, hch⟩ := joined_shape w ws hw hws
      rw [← h, hs] at hch
      have h2 : List.Chain' NotBothSpace [a, b] :=
        hch.infix ⟨l, r, by simp⟩
      simpa [NotBothSpace] using h2

/-- The contract of C1 at the command line `/danmaku` followed by a tab: there
is one field and the content is empty. -/
theorem remainingArgs_contract_witness :
    (specFields "/danmaku\t".toList).length ≤ 1 ∧ remainingArgs "/danmaku\t".toList = [] :=
  ⟨by decide, (remainingArgs_contract "/danmaku\t".toList).2.1 (by decide)⟩

/-! ## The handler -/

theorem sendBroadcast_calls (env : Env) (text : GoString) :
    (sendBroadcast env text).calls = [.sendBroadcast text] ∨
    (sendBroadcast env text).calls =
      [.sendBroadcast text,
       .httpDo "POST".toList env.DanmakuUrl "application/json".toList
         [("room_id".toList, []), ("course_name".toList, []),
          ("page_number".toList, "-1".toList), ("content".toList, text),
          ("type".toList, "command".toList),
          ("avatar_url".toList, "https://vip.123pan.cn/1841937928/11391818".toList)]] := by
  unfold sendBroadcast
  simp only [Marshal, requestBody]
  cases env.NewRequest env.DanmakuUrl with
  | some e => left; rfl
  | none =>
    right
    dsimp only
    cases env.Do env.DanmakuUrl _ with
    | error e => rfl
    | ok resp =>
      dsimp only
      split <;> rfl

theorem executeCommandDanmaku_eq (env : Env) (args : CommandArgs) :
    executeCommandDanmaku env args =
      ((danmakuPost env args).1 ++ [.sendEphemeralPost args.UserId (danmakuPost env args).2], {}) := by
  rfl

/-- C2: when the command line has no field after the trigger, the handler
posts the empty-content notice and nothing else happens (`sendBroadcast` is
not entered, no HTTP call is made); and whenever `sendBroadcast` is entered
from the handler, its text is not empty. -/
theorem empty_content_never_broadcast (env : Env) (args : CommandArgs) :
    ((Fields args.Command).length ≤ 1 →
      executeCommandDanmaku env args =
        ([.sendEphemeralPost args.UserId
            { ChannelId := args.ChannelId, Message := emptyContentNotice }], {})) ∧
    (∀ text, Call.sendBroadcast text ∈ (executeCommandDanmaku env args).1 → text ≠ []) ∧
    emptyContentNotice = "发送内容不能为空".toList := by
  refine ⟨?_, ?_, rfl⟩
  · intro h
    have h0 : remainingArgs args.Command = [] := by
      unfold remainingArgs
      simp [Nat.not_lt.2 h]
    simp [executeCommandDanmaku_eq, danmakuPost, h0]
  · intro text hmem
    rw [executeCommandDanmaku_eq] at hmem
    simp only [List.mem_append, List.mem_singleton, reduceCtorEq, or_false] at hmem
    unfold danmakuPost at hmem
    split at hmem
    · simp at hmem
    · rename_i hne
      rcases sendBroadcast_calls env (remainingArgs args.Command) with h | h <;>
        rw [h] at hmem <;> simp at hmem <;> rw [hmem] <;> exact hne

/-- The statement of C2 at the command line `/danmaku` followed by blanks,
with an endpoint that would answer 200. -/
theorem empty_content_never_broadcast_witness :
    (Fields "/danmaku  ".toList).length ≤ 1 ∧
    executeCommandDanmaku (sampleEnv 200 []) ⟨"u".toList, "c".toList, "/danmaku  ".toList⟩ =
      ([.sendEphemeralPost "u".toList
          { ChannelId := "c".toList, Message := emptyContentNotice }], {}) :=
  ⟨by decide,
   (empty_content_never_broadcast (sampleEnv 200 [])
      ⟨"u".toList, "c".toList, "/danmaku  ".toList⟩).1 (by decide)⟩

theorem sendBroadcast_calls_spec (env : Env) (text : GoString) :
    (sendBroadcast env text).calls =
      if env.NewRequest env.DanmakuUrl = none then
        [.sendBroadcast text,
         .httpDo "POST".toList env.DanmakuUrl "application/json".toList (specBody text)]
      else [.sendBroadcast text] := by
  unfold sendBroadcast
  simp only [Marshal, requestBody]
  cases env.NewRequest env.DanmakuUrl with
  | some e => rfl
  | none =>
    dsimp only
    cases env.Do env.DanmakuUrl _ with
    | error e => rfl
    | ok resp =>
      dsimp only
      split <;> rfl

theorem danmakuPost_nonempty (env : Env) (args : CommandArgs)
    (h : remainingArgs args.Command ≠ []) :
    danmakuPost env args =
      ((sendBroadcast env (remainingArgs args.Command)).calls,
       { ChannelId := args.ChannelId, Message := successMessage }) := by
  simp [danmakuPost, h]

/-- C3: for a command line with non-empty content, the request body that
`sendBroadcast` builds is the JSON object with the six members `room_id = ""`,
`course_name = ""`, `page_number = "-1"`, `content` = the extracted text,
`type = "command"` and the fixed `avatar_url`; every HTTP call of the handler
carries exactly that body, the call is made whenever the request can be
constructed, and two bodies differ at most in the member `content`. -/
theorem broadcast_request_body (env : Env) (args : CommandArgs)
    (h : remainingArgs args.Command ≠ []) :
    Marshal (requestBody (remainingArgs args.Command)) =
      .ok [("room_id".toList, "".toList), ("course_name".toList, "".toList),
           ("page_number".toList, "-1".toList),
           ("content".toList, remainingArgs args.Command),
           ("type".toList, "command".toList),
           ("avatar_url".toList, "https://vip.123pan.cn/1841937928/11391818".toList)] ∧
    (∀ m u ct body, Call.httpDo m u ct body ∈ (executeCommandDanmaku env args).1 →
      body = specBody (remainingArgs args.Command)) ∧
    (env.NewRequest env.DanmakuUrl = none →
      Call.httpDo "POST".toList env.DanmakuUrl "application/json".toList
        (specBody (remainingArgs args.Command)) ∈ (executeCommandDanmaku env args).1) ∧
    (∀ text, (specBody text).map Prod.fst = (specBody (remainingArgs args.Command)).map Prod.fst ∧
      ∀ key, key ≠ "content".toList →
        (specBody text).lookup key = (specBody (remainingArgs args.Command)).lookup key) := by
  refine ⟨rfl, ?_, ?_, ?_⟩
  · intro m u ct body hmem
    rw [executeCommandDanmaku_eq, danmakuPost_nonempty env args h, sendBroadcast_calls_spec] at hmem
    split at hmem
    · simp at hmem
      exact hmem.2.2.2
    · simp at hmem
  · intro hreq
    rw [executeCommandDanmaku_eq, danmakuPost_nonempty env args h, sendBroadcast_calls_spec]
    simp [hreq]
  · intro text
    refine ⟨rfl, ?_⟩
    intro key hkey
    simp only [specBody, List.lookup]
    split
    · rfl
    · split
      · rfl
      · split
        · rfl
        · split
          · rename_i hk
            exact absurd (by simpa using hk) hkey
          · rfl

/-- The statement of C3 at the command line `/danmaku  hi   there`: the content
member of the body sent is `hi there`. -/
theorem broadcast_request_body_witness :
    remainingArgs "/danmaku  hi   there".toList ≠ [] ∧
    Call.httpDo "POST".toList "http://localhost:8000/broadcast".toList "application/json".toList
        (specBody "hi there".toList) ∈
      (executeCommandDanmaku (sampleEnv 200 [])
        ⟨"u".toList, "c".toList, "/danmaku  hi   there".toList⟩).1 :=
  ⟨by decide,
   (broadcast_request_body (sampleEnv 200 [])
      ⟨"u".toList, "c".toList, "/danmaku  hi   there".toList⟩ (by decide)).2.2.1 rfl⟩

/-- C4: for a command line with non-empty content the handler posts the
success message whatever `sendBroadcast` did: its trace is the trace of
`sendBroadcast` followed by the one post, and neither the map nor the error
that `sendBroadcast` returned has any influence. -/
theorem reply_ignores_sender_outcome (env : Env) (args : CommandArgs)
    (h : remainingArgs args.Command ≠ []) :
    executeCommandDanmaku env args =
      ((sendBroadcast env (remainingArgs args.Command)).calls ++
        [.sendEphemeralPost args.UserId
          { ChannelId := args.ChannelId, Message := successMessage }], {}) ∧
    (executeCommandDanmaku env args).1.filter Call.isEphemeralPost =
      [.sendEphemeralPost args.UserId
          { ChannelId := args.ChannelId, Message := successMessage }] ∧
    successMessage = "弹幕发送成功🎉".toList := by
  refine ⟨?_, ?_, rfl⟩
  · rw [executeCommandDanmaku_eq, danmakuPost_nonempty env args h]
  · rw [executeCommandDanmaku_eq, danmakuPost_nonempty env args h, sendBroadcast_calls_spec]
    split <;> simp [Call.isEphemeralPost]

/-- The statement of C4 with an endpoint that answers 500: `sendBroadcast`
returns an error, and the post is the success message all the same. -/
theorem reply_ignores_sender_outcome_witness :
    remainingArgs "/danmaku hi".toList ≠ [] ∧
    (sendBroadcast (sampleEnv 500 "boom".toList) "hi".toList).err =
      some "广播失败: boom".toList ∧
    (executeCommandDanmaku (sampleEnv 500 "boom".toList)
        ⟨"u".toList, "c".toList, "/danmaku hi".toList⟩).1.filter Call.isEphemeralPost =
      [.sendEphemeralPost "u".toList
          { ChannelId := "c".toList, Message := "弹幕发送成功🎉".toList }] :=
  ⟨by decide, by decide,
   (reply_ignores_sender_outcome (sampleEnv 500 "boom".toList)
      ⟨"u".toList, "c".toList, "/danmaku hi".toList⟩ (by decide)).2.1⟩

theorem danmakuPost_calls_no_post (env : Env) (args : CommandArgs) :
    (danmakuPost env args).1.filter Call.isEphemeralPost = [] := by
  unfold danmakuPost
  split
  · rfl
  · dsimp only
    rw [sendBroadcast_calls_spec]
    split <;> simp [Call.isEphemeralPost]

theorem danmakuPost_post (env : Env) (args : CommandArgs) :
    (danmakuPost env args).2.ChannelId = args.ChannelId ∧
    ((danmakuPost env args).2.Message = emptyContentNotice ∨
     (danmakuPost env args).2.Message = successMessage) := by
  unfold danmakuPost
  split
  · exact ⟨rfl, Or.inl rfl⟩
  · exact ⟨rfl, Or.inr rfl⟩

/-- C6: on every invocation `executeCommandDanmaku` calls `SendEphemeralPost`
exactly once, as its last step, with the invoking user id and a post whose
channel is the invoking channel and whose message is one of the two fixed
texts; the response is the empty `CommandResponse`, and neither the trace nor
the response depends on what `SendEphemeralPost` returns. -/
theorem one_ephemeral_post (env : Env) (args : CommandArgs) :
    ∃ before post,
      executeCommandDanmaku env args =
        (before ++ [.sendEphemeralPost args.UserId post], { ResponseType := [], Text := [] }) ∧
      (executeCommandDanmaku env args).1.filter Call.isEphemeralPost =
        [.sendEphemeralPost args.UserId post] ∧
      post.ChannelId = args.ChannelId ∧
      (post.Message = "发送内容不能为空".toList ∨ post.Message = "弹幕发送成功🎉".toList) ∧
      ∀ answer : GoString → Post → Option Post,
        executeCommandDanmaku { env with SendEphemeralPost := answer } args =
          executeCommandDanmaku env args := by
  refine ⟨(danmakuPost env args).1, (danmakuPost env args).2, rfl, ?_,
    (danmakuPost_post env args).1, (danmakuPost_post env args).2, ?_⟩
  · rw [executeCommandDanmaku_eq, List.filter_append, danmakuPost_calls_no_post]
    rfl
  · intro answer
    rfl

/-- C10: extraction is a normal form.  Extracting from `/danmaku ` followed by
an extracted content gives that content back; two command lines with the same
white-space-separated fields have the same content, and the handler behaves
the same on them (same trace, the request body included, and same response). -/
theorem remainingArgs_normal_form (s t : GoString) :
    remainingArgs ("/danmaku ".toList ++ remainingArgs s) = remainingArgs s ∧
    (specFields s = specFields t → remainingArgs s = remainingArgs t) ∧
    (specFields s = specFields t → ∀ env user channel,
      executeCommandDanmaku env ⟨user, channel, s⟩ =
        executeCommandDanmaku env ⟨user, channel, t⟩) := by
  have hcongr : specFields s = specFields t → remainingArgs s = remainingArgs t := by
    intro h
    rw [remainingArgs_eq_Join, remainingArgs_eq_Join, Fields_eq_specFields,
      Fields_eq_specFields, h]
  refine ⟨?_, hcongr, ?_⟩
  · have htrig : IsWord IsSpace "/danmaku".toList := ⟨by decide, by decide⟩
    rcases remainingArgs_shape s with h | ⟨w, ws, hws0, hw, hws, _⟩
    · rw [h]; decide
    · have hc : remainingArgs s = Join (w :: ws) " ".toList := by
        rw [remainingArgs_eq_Join, hws0]
      have hcat : "/danmaku ".toList ++ Join (w :: ws) " ".toList =
          Join ("/danmaku".toList :: w :: ws) " ".toList := by
        rw [Join_cons "/danmaku".toList, Join_cons w]
        simp
      have hall : ∀ x ∈ w :: ws, IsWord IsSpace x := by
        intro x hx
        rcases List.mem_cons.1 hx with rfl | hx
        · exact hw
        · exact hws x hx
      rw [remainingArgs_eq_Join ("/danmaku ".toList ++ remainingArgs s), hc, hcat,
        Fields_Join _ _ htrig hall]
      rfl
  · intro h env user channel
    have hr := hcongr h
    simp only [executeCommandDanmaku_eq, danmakuPost, hr]

/-- The statement of C10 at two command lines that differ in their white
space only. -/
theorem remainingArgs_normal_form_witness :
    specFields "/danmaku  a \t b".toList = specFields " /danmaku a b ".toList ∧
    remainingArgs "/danmaku  a \t b".toList = remainingArgs " /danmaku a b ".toList :=
  ⟨by decide,
   (remainingArgs_normal_form "/danmaku  a \t b".toList " /danmaku a b ".toList).2.1
     (by decide)⟩

/-! ## Base 64 -/

theorem or3_eq_add (x y z : Nat) (hy : y < 256) (hz : z < 256) :
    x <<< 16 ||| y <<< 8 ||| z = x * 65536 + y * 256 + z := by
  have h1 : x <<< 16 ||| y <<< 8 = 2 ^ 8 * (x * 256 + y) := by
    have := Nat.mul_add_lt_is_or (i := 16) (b := y <<< 8) (by rw [Nat.shiftLeft_eq]; omega) x
    rw [Nat.shiftLeft_eq x 16, Nat.mul_comm x (2 ^ 16), ← this, Nat.shiftLeft_eq]
    omega
  rw [h1, ← Nat.mul_add_lt_is_or (by omega)]
  omega

theorem or2_eq_add (x y : Nat) (hy : y < 256) :
    x <<< 16 ||| y <<< 8 = x * 65536 + y * 256 + 0 := by
  have := or3_eq_add x y 0 hy (by omega)
  simpa using this

theorem sextet_eq (v k : Nat) : v >>> k &&& 0x3F = v / 2 ^ k % 64 := by
  rw [Nat.shiftRight_eq_div_pow]
  exact Nat.and_pow_two_sub_one_eq_mod _ 6

theorem sextet0_eq (v : Nat) : v &&& 0x3F = v % 64 :=
  Nat.and_pow_two_sub_one_eq_mod _ 6

theorem pad_length (n : Nat) : (4 - (n + 4) % 4) % 4 = (4 - n % 4) % 4 := by omega

theorem bits_of_byte (x : Nat) (hx : x < 256) :
    x = 128 * (x / 128 % 2) + 64 * (x / 64 % 2) + 32 * (x / 32 % 2) + 16 * (x / 16 % 2) +
      8 * (x / 8 % 2) + 4 * (x / 4 % 2) + 2 * (x / 2 % 2) + x % 2 := by omega

theorem sextets_of_bits
    (a7 a6 a5 a4 a3 a2 a1 a0 b7 b6 b5 b4 b3 b2 b1 b0 c7 c6 c5 c4 c3 c2 c1 c0 x y z : Nat)
    (ha7 : a7 < 2) (ha6 : a6 < 2) (ha5 : a5 < 2) (ha4 : a4 < 2) (ha3 : a3 < 2) (ha2 : a2 < 2)
    (ha1 : a1 < 2) (ha0 : a0 < 2) (hb7 : b7 < 2) (hb6 : b6 < 2) (hb5 : b5 < 2) (hb4 : b4 < 2)
    (hb3 : b3 < 2) (hb2 : b2 < 2) (hb1 : b1 < 2) (hb0 : b0 < 2) (hc7 : c7 < 2) (hc6 : c6 < 2)
    (hc5 : c5 < 2) (hc4 : c4 < 2) (hc3 : c3 < 2) (hc2 : c2 < 2) (hc1 : c1 < 2) (hc0 : c0 < 2)
    (hx : x = 128 * a7 + 64 * a6 + 32 * a5 + 16 * a4 + 8 * a3 + 4 * a2 + 2 * a1 + a0)
    (hy : y = 128 * b7 + 64 * b6 + 32 * b5 + 16 * b4 + 8 * b3 + 4 * b2 + 2 * b1 + b0)
    (hz : z = 128 * c7 + 64 * c6 + 32 * c5 + 16 * c4 + 8 * c3 + 4 * c2 + 2 * c1 + c0) :
    2 * (2 * (2 * (2 * (2 * (2 * 0 + a7) + a6) + a5) + a4) + a3) + a2 =
      (x * 65536 + y * 256 + z) / 2 ^ 18 % 64 ∧
    2 * (2 * (2 * (2 * (2 * (2 * 0 + a1) + a0) + b7) + b6) + b5) + b4 =
      (x * 65536 + y * 256 + z) / 2 ^ 12 % 64 ∧
    2 * (2 * (2 * (2 * (2 * (2 * 0 + b3) + b2) + b1) + b0) + c7) + c6 =
      (x * 65536 + y * 256 + z) / 2 ^ 6 % 64 ∧
    2 * (2 * (2 * (2 * (2 * (2 * 0 + c5) + c4) + c3) + c2) + c1) + c0 =
      (x * 65536 + y * 256 + z) % 64 := by
  subst hx hy hz
  refine ⟨?_, ?_, ?_, ?_⟩ <;> omega

theorem sextets_of_bytes (b0 b1 b2 : Nat) :
    2 * (2 * (2 * (2 * (2 * (2 * 0 + b0 % 256 / 128 % 2) + b0 % 256 / 64 % 2) +
      b0 % 256 / 32 % 2) + b0 % 256 / 16 % 2) + b0 % 256 / 8 % 2) + b0 % 256 / 4 % 2 =
      ((b0 % 256) * 65536 + (b1 % 256) * 256 + b2 % 256) / 2 ^ 18 % 64 ∧
    2 * (2 * (2 * (2 * (2 * (2 * 0 + b0 % 256 / 2 % 2) + b0 % 256 % 2) +
      b1 % 256 / 128 % 2) + b1 % 256 / 64 % 2) + b1 % 256 / 32 % 2) + b1 % 256 / 16 % 2 =
      ((b0 % 256) * 65536 + (b1 % 256) * 256 + b2 % 256) / 2 ^ 12 % 64 ∧
    2 * (2 * (2 * (2 * (2 * (2 * 0 + b1 % 256 / 8 % 2) + b1 % 256 / 4 % 2) +
      b1 % 256 / 2 % 2) + b1 % 256 % 2) + b2 % 256 / 128 % 2) + b2 % 256 / 64 % 2 =
      ((b0 % 256) * 65536 + (b1 % 256) * 256 + b2 % 256) / 2 ^ 6 % 64 ∧
    2 * (2 * (2 * (2 * (2 * (2 * 0 + b2 % 256 / 32 % 2) + b2 % 256 / 16 % 2) +
      b2 % 256 / 8 % 2) + b2 % 256 / 4 % 2) + b2 % 256 / 2 % 2) + b2 % 256 % 2 =
      ((b0 % 256) * 65536 + (b1 % 256) * 256 + b2 % 256) % 64 :=
  sextets_of_bits _ _ _ _ _ _ _ _ _ _ _ _ _ _ _ _ _ _ _ _ _ _ _ _ _ _ _
    (Nat.mod_lt _ (by decide)) (Nat.mod_lt _ (by decide)) (Nat.mod_lt _ (by decide))
    (Nat.mod_lt _ (by decide)) (Nat.mod_lt _ (by decide)) (Nat.mod_lt _ (by decide))
    (Nat.mod_lt _ (by decide)) (Nat.mod_lt _ (by decide)) (Nat.mod_lt _ (by decide))
    (Nat.mod_lt _ (by decide)) (Nat.mod_lt _ (by decide)) (Nat.mod_lt _ (by decide))
    (Nat.mod_lt _ (by decide)) (Nat.mod_lt _ (by decide)) (Nat.mod_lt _ (by decide))
    (Nat.mod_lt _ (by decide)) (Nat.mod_lt _ (by decide)) (Nat.mod_lt _ (by decide))
    (Nat.mod_lt _ (by decide)) (Nat.mod_lt _ (by decide)) (Nat.mod_lt _ (by decide))
    (Nat.mod_lt _ (by decide)) (Nat.mod_lt _ (by decide)) (Nat.mod_lt _ (by decide))
    (bits_of_byte _ (Nat.mod_lt _ (by decide))) (bits_of_byte _ (Nat.mod_lt _ (by decide)))
    (bits_of_byte _ (Nat.mod_lt _ (by decide)))

theorem stdBase64_chunk (b0 b1 b2 : Nat) (rest : List Nat) :
    stdBase64 (b0 :: b1 :: b2 :: rest) =
      encodeAt (((b0 % 256) * 65536 + (b1 % 256) * 256 + b2 % 256) / 2 ^ 18 % 64) ::
      encodeAt (((b0 % 256) * 65536 + (b1 % 256) * 256 + b2 % 256) / 2 ^ 12 % 64) ::
      encodeAt (((b0 % 256) * 65536 + (b1 % 256) * 256 + b2 % 256) / 2 ^ 6 % 64) ::
      encodeAt (((b0 % 256) * 65536 + (b1 % 256) * 256 + b2 % 256) % 64) ::
      stdBase64 rest := by
  obtain ⟨e1, e2, e3, e4⟩ := sextets_of_bytes b0 b1 b2
  simp only [stdBase64, List.flatMap_cons, byteBits, List.cons_append, List.nil_append, sextets,
    List.map_cons, List.length_cons, pad_length, bitsValue, List.foldl_cons, List.foldl_nil]
  rw [e1, e2, e3, e4]
  rfl

theorem stdBase64_two (b0 b1 : Nat) :
    stdBase64 [b0, b1] =
      [encodeAt (((b0 % 256) * 65536 + (b1 % 256) * 256 + 0) / 2 ^ 18 % 64),
       encodeAt (((b0 % 256) * 65536 + (b1 % 256) * 256 + 0) / 2 ^ 12 % 64),
       encodeAt (((b0 % 256) * 65536 + (b1 % 256) * 256 + 0) / 2 ^ 6 % 64), '='] := by
  obtain ⟨e1, e2, e3, _⟩ := sextets_of_bytes b0 b1 0
  simp only [Nat.zero_mod, Nat.zero_div] at e1 e2 e3
  simp only [stdBase64, List.flatMap_cons, List.flatMap_nil, byteBits, List.cons_append,
    List.nil_append, sextets, List.map_cons, List.map_nil, List.length_cons, List.length_nil,
    bitsValue, List.foldl_cons, List.foldl_nil, List.replicate, List.append_nil]
  rw [e1, e2, e3]

theorem stdBase64_one (b0 : Nat) :
    stdBase64 [b0] =
      [encodeAt (((b0 % 256) * 65536 + 0 * 256 + 0) / 2 ^ 18 % 64),
       encodeAt (((b0 % 256) * 65536 + 0 * 256 + 0) / 2 ^ 12 % 64), '=', '='] := by
  obtain ⟨e1, e2, _, _⟩ := sextets_of_bytes b0 0 0
  simp only [Nat.zero_mod, Nat.zero_div] at e1 e2
  simp only [stdBase64, List.flatMap_cons, List.flatMap_nil, byteBits, List.cons_append,
    List.nil_append, sextets, List.map_cons, List.map_nil, List.length_cons, List.length_nil,
    bitsValue, List.foldl_cons, List.foldl_nil, List.replicate, List.append_nil]
  rw [e1, e2]

theorem Encode_eq_stdBase64 (src : List Nat) : Encode src = stdBase64 src := by
  induction src using Encode.induct with
  | case1 b0 b1 b2 rest ih =>
    rw [stdBase64_chunk, ← ih]
    simp only [Encode, or3_eq_add _ _ _ (Nat.mod_lt b1 (by decide)) (Nat.mod_lt b2 (by decide)),
      sextet0_eq, Nat.shiftRight_eq_div_pow]
  | case2 b0 b1 =>
    rw [stdBase64_two]
    simp only [Encode, or2_eq_add _ _ (Nat.mod_lt b1 (by decide)), sextet0_eq,
      Nat.shiftRight_eq_div_pow]
  | case3 b0 =>
    rw [stdBase64_one]
    simp only [Encode, Nat.shiftLeft_eq, sextet0_eq, Nat.shiftRight_eq_div_pow]
    norm_num
  | case4 => rfl

/-! ## Registration -/

theorem getAutocompleteIconData_calls (env : Env) (icon_name : GoString) :
    (getAutocompleteIconData env icon_name).1.filter Call.isRegisterCommand = [] := by
  unfold getAutocompleteIconData
  cases env.GetBundlePath with
  | error e => rfl
  | ok bundlePath =>
    dsimp only
    cases env.ReadFile [bundlePath, "assets".toList, icon_name] with
    | error e => rfl
    | ok icon => rfl

theorem registerCommands_eq (env : Env) :
    registerCommands env =
      ((getAutocompleteIconData env "danmaku.svg".toList).1 ++
        [.registerCommand (danmakuCommand (getAutocompleteIconData env "danmaku.svg".toList).2)],
       (env.RegisterCommand
          (danmakuCommand (getAutocompleteIconData env "danmaku.svg".toList).2)).map
        (fun err => "failed to register danmaku command: ".toList ++ err)) := by
  unfold registerCommands
  generalize getAutocompleteIconData env "danmaku.svg".toList = p
  obtain ⟨calls, iconData⟩ := p
  dsimp only
  cases env.RegisterCommand (danmakuCommand iconData) with
  | none => rfl
  | some err => rfl

/-- C7: icon loading never makes registration fail.  `getAutocompleteIconData`
returns the empty string when the bundle path lookup or the file read fails,
and otherwise the data-URI prefix followed by the standard base64 encoding of
the file bytes; `registerCommands` calls `RegisterCommand` exactly once, with
trigger `danmaku`, autocomplete enabled and that icon data, and returns an
error exactly when that call returns one. -/
theorem icon_failure_never_fails_registration (env : Env) (icon_name : GoString) :
    (getAutocompleteIconData env icon_name).2 =
      (match env.GetBundlePath with
       | .error _ => "".toList
       | .ok bundlePath =>
         match env.ReadFile [bundlePath, "assets".toList, icon_name] with
         | .error _ => "".toList
         | .ok icon => "data:image/svg+xml;base64,".toList ++ stdBase64 icon) ∧
    (∃ cmd,
      (registerCommands env).1.filter Call.isRegisterCommand = [.registerCommand cmd] ∧
      cmd.Trigger = "danmaku".toList ∧ cmd.AutoComplete = true ∧
      cmd.AutocompleteIconData = (getAutocompleteIconData env "danmaku.svg".toList).2 ∧
      ((registerCommands env).2 ≠ none ↔ env.RegisterCommand cmd ≠ none)) := by
  constructor
  · unfold getAutocompleteIconData
    cases env.GetBundlePath with
    | error e => rfl
    | ok bundlePath =>
      dsimp only
      cases env.ReadFile [bundlePath, "assets".toList, icon_name] with
      | error e => rfl
      | ok icon =>
        dsimp only
        rw [EncodeToString, Encode_eq_stdBase64]
  · refine ⟨danmakuCommand (getAutocompleteIconData env "danmaku.svg".toList).2, ?_, rfl, rfl,
      rfl, ?_⟩
    · rw [registerCommands_eq, List.filter_append, getAutocompleteIconData_calls]
      rfl
    · rw [registerCommands_eq]
      cases env.RegisterCommand
        (danmakuCommand (getAutocompleteIconData env "danmaku.svg".toList).2) <;> simp

/-- The statement of C7 in an environment without a bundle path: the icon is
empty and registration succeeds. -/
theorem icon_failure_never_fails_registration_witness :
    (getAutocompleteIconData
        { sampleEnv 200 [] with GetBundlePath := .error "no bundle".toList }
        "danmaku.svg".toList).2 = [] ∧
    (registerCommands
        { sampleEnv 200 [] with GetBundlePath := .error "no bundle".toList }).2 = none :=
  ⟨(icon_failure_never_fails_registration
      { sampleEnv 200 [] with GetBundlePath := .error "no bundle".toList }
      "danmaku.svg".toList).1, by decide⟩

/-! ## The broadcast sender -/

/-- C5, as the code has it: when the endpoint answers, `sendBroadcast` returns
a `nil` map and an error exactly when the status code is not 200 (201 and 204
included); the message of that error is `广播失败: ` followed by the body text
and does not depend on the status; for status 200 it returns the map and no
error. -/
theorem sendBroadcast_status (env : Env) (text : GoString) (resp : HttpResponse)
    (hreq : env.NewRequest env.DanmakuUrl = none)
    (hdo : env.Do env.DanmakuUrl (specBody text) = .ok resp) :
    (resp.StatusCode ≠ 200 →
      (sendBroadcast env text).result = none ∧
      (sendBroadcast env text).err = some ("广播失败: ".toList ++ resp.Body)) ∧
    (resp.StatusCode = 200 →
      (sendBroadcast env text).result =
        some [("response_type".toList, "ephemeral".toList), ("text".toList, "发送成功".toList)] ∧
      (sendBroadcast env text).err = none) := by
  have hdo2 : env.Do env.DanmakuUrl
      [("room_id".toList, []), ("course_name".toList, []), ("page_number".toList, "-1".toList),
       ("content".toList, text), ("type".toList, "command".toList),
       ("avatar_url".toList, "https://vip.123pan.cn/1841937928/11391818".toList)] = .ok resp := hdo
  unfold sendBroadcast
  simp only [Marshal, requestBody, hreq, hdo2]
  constructor
  · intro hne
    have hb : (resp.StatusCode != 200) = true := by simpa using hne
    rw [if_pos hb]
    exact ⟨rfl, rfl⟩
  · intro he
    have hb : ¬ (resp.StatusCode != 200) = true := by simp [he]
    rw [if_neg hb]
    exact ⟨rfl, rfl⟩

/-- The statement of C5 for an endpoint that answers 204 with the body
`no content`. -/
theorem sendBroadcast_status_witness :
    (sampleEnv 204 "no content".toList).NewRequest (sampleEnv 204 "no content".toList).DanmakuUrl
      = none ∧
    (sampleEnv 204 "no content".toList).Do (sampleEnv 204 "no content".toList).DanmakuUrl
      (specBody "hi".toList) = .ok ⟨204, "no content".toList⟩ ∧
    (sendBroadcast (sampleEnv 204 "no content".toList) "hi".toList).result = none ∧
    (sendBroadcast (sampleEnv 204 "no content".toList) "hi".toList).err =
      some "广播失败: no content".toList :=
  ⟨rfl, rfl,
   (sendBroadcast_status (sampleEnv 204 "no content".toList) "hi".toList
      ⟨204, "no content".toList⟩ rfl rfl).1 (by decide)⟩

/-- C5, as the claim has it, fails: the endpoint answers 404 and 500 with the
same body, `sendBroadcast` returns the same error for both, and its message
holds neither status code. -/
theorem sendBroadcast_error_omits_status :
    (sendBroadcast (sampleEnv 404 "boom".toList) "hi".toList).err =
      some "广播失败: boom".toList ∧
    (sendBroadcast (sampleEnv 500 "boom".toList) "hi".toList).err =
      some "广播失败: boom".toList ∧
    ¬ ("404".toList <:+: "广播失败: boom".toList) ∧
    ¬ ("500".toList <:+: "广播失败: boom".toList) := by
  refine ⟨by decide, by decide, by decide, by decide⟩

/-! ## The format loop always has rounds to spare -/

theorem parsenum_loop_length (s : GoString) (num : Nat) (isnum : Bool) :
    (parsenum.loop s num isnum).2.2.length ≤ s.length := by
  induction s generalizing num isnum with
  | nil => simp [parsenum.loop]
  | cons c cs ih =>
    unfold parsenum.loop
    split
    · split
      · simp
      · exact Nat.le_succ_of_le (ih _ _)
    · exact Nat.le_refl _

theorem argNumber_length (format : GoString) (good : Bool) :
    (argNumber format good).1.length ≤ format.length := by
  unfold argNumber
  split
  · simp
  · exact Nat.le_refl _

theorem verbWidth_length (format : GoString) (afterIndex good : Bool) :
    (verbWidth format afterIndex good).2.1.length ≤ format.length := by
  unfold verbWidth
  split
  · simp
  · exact parsenum_loop_length _ _ _

theorem verbPrec_length (format : GoString) (afterIndex good : Bool) :
    (verbPrec format afterIndex good).2.1.length ≤ format.length := by
  unfold verbPrec
  split
  · rename_i rest
    have h1 := argNumber_length rest (if afterIndex then false else good)
    generalize argNumber rest (if afterIndex then false else good) = r at h1
    obtain ⟨r1, r2, r3⟩ := r
    dsimp only at h1 ⊢
    split
    · simp at h1 ⊢; omega
    · exact Nat.le_trans (parsenum_loop_length r1 0 false) (Nat.le_trans h1 (Nat.le_succ _))
  · exact Nat.le_refl _

theorem doVerb_length (format : GoString) : (doVerb format).2.length ≤ format.length := by
  unfold doVerb
  have h0 : (format.dropWhile isFlag).length ≤ format.length :=
    (List.dropWhile_sublist _).length_le
  have h1 := argNumber_length (format.dropWhile isFlag) true
  generalize argNumber (format.dropWhile isFlag) true = r1 at h1
  obtain ⟨f1, a1, g1⟩ := r1
  dsimp only at h1 ⊢
  have h2 := verbWidth_length f1 a1 g1
  generalize verbWidth f1 a1 g1 = r2 at h2
  obtain ⟨o2, f2, a2, g2⟩ := r2
  dsimp only at h2 ⊢
  have h3 := verbPrec_length f2 a2 g2
  generalize verbPrec f2 a2 g2 = r3 at h3
  obtain ⟨o3, f3, a3, g3⟩ := r3
  dsimp only at h3 ⊢
  have h4 : (if a3 = true then (f3, a3, g3) else argNumber f3 g3).1.length ≤ f3.length := by
    split
    · exact Nat.le_refl _
    · exact argNumber_length _ _
  generalize (if a3 = true then (f3, a3, g3) else argNumber f3 g3) = r4 at h4
  obtain ⟨f4, a4, g4⟩ := r4
  dsimp only at h4 ⊢
  split
  · simp
  · rename_i verb rest
    simp only [List.length_cons] at h4
    split
    · dsimp only; omega
    · split <;> (dsimp only; omega)

theorem doPrintf_fuel (fuel1 fuel2 : Nat) (format : GoString)
    (h1 : format.length < fuel1) (h2 : format.length < fuel2) :
    doPrintf.loop fuel1 format = doPrintf.loop fuel2 format := by
  induction fuel1 generalizing fuel2 format with
  | zero => omega
  | succ n ih =>
    cases fuel2 with
    | zero => omega
    | succ m =>
      unfold doPrintf.loop
      have hd : (format.dropWhile (fun c => c != '%')).length ≤ format.length :=
        (List.dropWhile_sublist _).length_le
      split
      · rfl
      · rename_i c afterPercent heq
        rw [heq] at hd
        simp only [List.length_cons] at hd
        have hv := doVerb_length afterPercent
        generalize doVerb afterPercent = r at hv
        obtain ⟨out, rest⟩ := r
        dsimp only at hv ⊢
        rw [ih m rest (by omega) (by omega)]

/-- Any number of rounds above the length of the format gives the result of
`Sprintf`: the loop never stops for lack of rounds. -/
theorem Sprintf_fuel (fuel : Nat) (format : GoString) (h : format.length < fuel) :
    doPrintf.loop fuel format = Sprintf format :=
  doPrintf_fuel fuel (format.length + 1) format h (Nat.lt_succ_self _)

/-! ## Dispatch -/

theorem ExecuteCommand_of_fields (env : Env) (args : CommandArgs) (field0 : GoString)
    (rest : List GoString) (h : Fields args.Command = field0 :: rest) :
    ExecuteCommand env args =
      if TrimPrefix field0 "/".toList = "danmaku".toList then
        .returned (executeCommandDanmaku env args).1 (some (executeCommandDanmaku env args).2, none)
      else
        .returned []
          (some { ResponseType := "ephemeral".toList
                  Text := Sprintf ("Unknown command: ".toList ++ args.Command) }, none) := by
  unfold ExecuteCommand
  rw [h]
  rfl

theorem ExecuteCommand_panics_iff (env : Env) (args : CommandArgs) :
    (∃ msg, ExecuteCommand env args = .panicked msg) ↔ Fields args.Command = [] := by
  constructor
  · rintro ⟨msg, hmsg⟩
    cases h : Fields args.Command with
    | nil => rfl
    | cons field0 rest =>
      rw [ExecuteCommand_of_fields env args field0 rest h] at hmsg
      split at hmsg <;> cases hmsg
  · intro h
    refine ⟨"runtime error: index out of range [0] with length 0".toList, ?_⟩
    unfold ExecuteCommand
    rw [h]

theorem Sprintf_of_no_percent (format : GoString) (h : '%' ∉ format) :
    Sprintf format = format := by
  have hd : format.dropWhile (fun c => c != '%') = [] := by
    rw [List.dropWhile_eq_nil_iff]
    intro c hc
    have : c ≠ '%' := fun e => h (e ▸ hc)
    simpa using this
  simp [Sprintf, doPrintf.loop, hd]

/-- C8, at the inputs where it fails: on the empty command line, and on one
made of white space only, `strings.Fields` returns no field and taking
element `0` panics, whatever the environment and the other arguments. -/
theorem ExecuteCommand_panics_without_fields (env : Env) (user channel : GoString) :
    ExecuteCommand env ⟨user, channel, "".toList⟩ =
      .panicked "runtime error: index out of range [0] with length 0".toList ∧
    ExecuteCommand env ⟨user, channel, " \t ".toList⟩ =
      .panicked "runtime error: index out of range [0] with length 0".toList :=
  ⟨rfl, rfl⟩

/-- C9, at inputs where it fails: the command lines `/foo %d` and `/sale 100%`
are not the danmaku command, no call is made, the response is ephemeral, and
its text is `Unknown command: /foo %!d(MISSING)`, respectively
`Unknown command: /sale 100%!(NOVERB)`, neither of which is `Unknown command: `
followed by the command line. -/
theorem unknown_command_text_percent (env : Env) (user channel : GoString) :
    ExecuteCommand env ⟨user, channel, "/foo %d".toList⟩ =
      .returned []
        (some { ResponseType := "ephemeral".toList
                Text := "Unknown command: /foo %!d(MISSING)".toList }, none) ∧
    "Unknown command: /foo %!d(MISSING)".toList ≠ "Unknown command: ".toList ++ "/foo %d".toList ∧
    ExecuteCommand env ⟨user, channel, "/sale 100%".toList⟩ =
      .returned []
        (some { ResponseType := "ephemeral".toList
                Text := "Unknown command: /sale 100%!(NOVERB)".toList }, none) ∧
    "Unknown command: /sale 100%!(NOVERB)".toList ≠
      "Unknown command: ".toList ++ "/sale 100%".toList :=
  ⟨rfl, by decide, rfl, by decide⟩

/-- The dispatch of `ExecuteCommand` on a command line with at least one
field: the danmaku handler runs exactly when the first field, without one
leading `/`, is `danmaku`; otherwise nothing is called and the response is
ephemeral, with the text that `Sprintf` makes of `Unknown command: ` followed
by the command line, which is that very text when the line has no `%`. -/
theorem ExecuteCommand_dispatch (env : Env) (args : CommandArgs) (field0 : GoString)
    (rest : List GoString) (h : Fields args.Command = field0 :: rest) :
    (TrimPrefix field0 "/".toList = "danmaku".toList →
      ExecuteCommand env args =
        .returned (executeCommandDanmaku env args).1
          (some (executeCommandDanmaku env args).2, none)) ∧
    (TrimPrefix field0 "/".toList ≠ "danmaku".toList →
      ExecuteCommand env args =
        .returned []
          (some { ResponseType := "ephemeral".toList
                  Text := Sprintf ("Unknown command: ".toList ++ args.Command) }, none)) ∧
    ('%' ∉ args.Command →
      Sprintf ("Unknown command: ".toList ++ args.Command) =
        "Unknown command: ".toList ++ args.Command) := by
  refine ⟨?_, ?_, ?_⟩
  · intro ht
    rw [ExecuteCommand_of_fields env args field0 rest h, if_pos ht]
  · intro ht
    rw [ExecuteCommand_of_fields env args field0 rest h, if_neg ht]
  · intro hp
    apply Sprintf_of_no_percent
    intro hmem
    rcases List.mem_append.1 hmem with hm | hm
    · revert hm; decide
    · exact hp hm

/-! ## Sample evaluations -/

theorem Fields_samples :
    Fields " /danmaku　a b  ".toList = ["/danmaku".toList, "a".toList, "b".toList] ∧
    Fields "".toList = [] ∧
    Fields " \t\n".toList = [] ∧
    remainingArgs "/danmaku \t\n ".toList = [] ∧
    remainingArgs "/danmaku 你好  世界".toList = "你好 世界".toList := by
  decide

theorem Sprintf_samples :
    Sprintf "Unknown command: /x %d".toList = "Unknown command: /x %!d(MISSING)".toList ∧
    Sprintf "/x 100%".toList = "/x 100%!(NOVERB)".toList ∧
    Sprintf "/x 50%% off".toList = "/x 50% off".toList ∧
    Sprintf "/x %[1]d %*d %.*f".toList =
      "/x %!d(BADINDEX) %!(BADWIDTH)%!d(MISSING) %!(BADPREC)%!f(MISSING)".toList ∧
    Sprintf "/x plain".toList = "/x plain".toList := by
  decide

theorem EncodeToString_samples :
    EncodeToString [60, 115, 118, 103, 47, 62] = "PHN2Zy8+".toList ∧
    EncodeToString [60, 115, 118, 103, 47] = "PHN2Zy8=".toList ∧
    EncodeToString [60, 115, 118, 103] = "PHN2Zw==".toList ∧
    EncodeToString [] = [] := by
  decide

theorem registerCommands_sample :
    (registerCommands (sampleEnv 200 [])).2 = none ∧
    (registerCommands (sampleEnv 200 [])).1 =
      [.getBundlePath,
       .readFile ["/plugins/danmaku".toList, "assets".toList, "danmaku.svg".toList],
       .registerCommand
         { Trigger := "danmaku".toList
           AutoComplete := true
           AutoCompleteHint := []
           AutoCompleteDesc := "向所有人发送弹幕".toList
           AutocompleteIconData := "data:image/svg+xml;base64,PHN2Zy8+".toList }] := by
  decide

theorem sendBroadcast_samples :
    (sendBroadcast (sampleEnv 200 []) "hi".toList).err = none ∧
    (sendBroadcast (unreachableEnv "context deadline exceeded".toList) "hi".toList).err =
      some "请求失败: context deadline exceeded".toList ∧
    (sendBroadcast (badUrlEnv "missing protocol scheme".toList) "hi".toList) =
      ⟨[.sendBroadcast "hi".toList], none, some "创建请求失败: missing protocol scheme".toList⟩ := by
  decide

end Danmaku
